import Mathlib

/-!
# The `phantom` cpufreq governor (drivers/cpufreq/cpufreq_phantom.c)

A shallow embedding of the governor: the per-CPU sampling step
`phantom_check_cpu`, the work handler `do_phantom_timer`, the governor
callback `cpufreq_governor_phantom` (START / STOP / LIMITS) and the sysfs
write path `store_sampling_rate` / `update_sampling_rate`.

Conventions of the embedding.

* `unsigned int` values are naturals reduced `% 2^32`, `u64` values naturals
  reduced `% 2^64`, `int` values are integers; the conversions are explicit.
* The per-CPU variable `od_phantom_cpuinfo` is a function from CPU numbers.
* `jiffies` and the expiry time of a timer are absolute tick counts.
* Code executes sequentially.  Every call into the kernel that a property
  talks about (mutexes, delayed work, frequency table, frequency driver,
  sysfs) is recorded in an effect trace, a `List Event`, in program order.
* Services that the file only calls are inputs: the readings of one call are
  in `Env`, the two helper functions in `Kernel`.
-/

namespace Phantom

/-! ## Data model -/

/-- The relation argument of `cpufreq_frequency_table_target` and of
`__cpufreq_driver_target`; the source only names the two constants. -/
inductive Relation where
  | CPUFREQ_RELATION_L
  | CPUFREQ_RELATION_H
deriving DecidableEq, Repr

/-- The fields of `struct cpufreq_policy` the governor reads (all `unsigned int`). -/
structure cpufreq_policy where
  cpu : Nat
  min : Nat
  max : Nat
  cur : Nat
deriving DecidableEq, Repr

/-- The part of `struct delayed_work` the governor looks at: the pending bit
(`delayed_work_pending`) and `work.timer.expires`. -/
structure delayed_work where
  pending : Bool
  expires : Nat
deriving DecidableEq, Repr

/-- The per-CPU record `struct cpufreq_phantom_cpuinfo`.  `cur_policy` is a
pointer in the source, `none` is `NULL`; `freq_table` lists the frequencies
of the table entries.  The state of `timer_mutex` is followed on the trace. -/
structure cpufreq_phantom_cpuinfo where
  prev_cpu_wall : Nat
  prev_cpu_idle : Nat
  freq_table : List Nat
  work : delayed_work
  cur_policy : Option cpufreq_policy
  cpu : Nat
  enable : Bool
deriving DecidableEq, Repr

/-- The file-level variables: `phantom_enable`, `phantom_tuners_ins.sampling_rate`
(an `atomic_t`, so an `int`) and the per-CPU `od_phantom_cpuinfo`. -/
structure GovState where
  phantom_enable : Nat
  sampling_rate : Int
  od_phantom_cpuinfo : Nat → cpufreq_phantom_cpuinfo

/-- The calls the governor makes into the rest of the kernel, as recorded on
the trace.  `mutex_lock c` / `mutex_unlock c` act on the `timer_mutex` of CPU
`c`, `global_lock` / `global_unlock` on `phantom_mutex`; the delayed work of
CPU `w` is named by `w`, so `queue_delayed_work_on cpu w delay` queues the
work item of `od_phantom_cpuinfo w` on CPU `cpu`. -/
inductive Event where
  | mutex_lock (cpu : Nat)
  | mutex_unlock (cpu : Nat)
  | mutex_init (cpu : Nat)
  | mutex_destroy (cpu : Nat)
  | global_lock
  | global_unlock
  | cancel_delayed_work_sync (cpu : Nat)
  | queue_delayed_work_on (cpu : Nat) (work : Nat) (delay : Nat)
  | table_target (target : Nat) (relation : Relation)
  | driver_target (freq : Nat) (relation : Relation)
  | sysfs_create_group
  | sysfs_remove_group
deriving DecidableEq, Repr

/-- What the kernel answers during one call of a governor function:
`jiffies`, the online CPU mask, the idle / iowait / wall counters of
`get_cpu_idle_time_us` and `get_cpu_iowait_time_us`, `cpufreq_cpu_get`
(the `cpu` field of the policy found, `none` for `NULL`),
`cpufreq_frequency_get_table` and the return code of `sysfs_create_group`. -/
structure Env where
  jiffies : Nat
  online : List Nat
  get_cpu_idle_time_us : Nat → Nat
  get_cpu_iowait_time_us : Nat → Nat
  last_update_time : Nat → Nat
  cpufreq_cpu_get : Nat → Option Nat
  cpufreq_frequency_get_table : Nat → List Nat
  sysfs_create_group : Int

/-- The two kernel helpers whose bodies are outside the file:
`usecs_to_jiffies` and `cpufreq_frequency_table_target`, the latter giving
the index it stores through its last argument, `none` when it fails and
leaves `index` alone. -/
structure Kernel where
  usecs_to_jiffies : Nat → Nat
  table_target : List Nat → Nat → Relation → Option Nat

/-- The `event` argument of the governor callback; `other` is any value the
`switch` has no case for. -/
inductive GovEvent where
  | CPUFREQ_GOV_START
  | CPUFREQ_GOV_STOP
  | CPUFREQ_GOV_LIMITS
  | other
deriving DecidableEq, Repr

/-! ## Machine integers -/

/-- Truncation to `unsigned int`. -/
def u32 (n : Nat) : Nat := n % 2 ^ 32

/-- Truncation to `u64`. -/
def u64 (n : Nat) : Nat := n % 2 ^ 64

/-- Subtraction of two `u64` values. -/
def u64_sub (a b : Nat) : Nat := (u64 a + 2 ^ 64 - u64 b) % 2 ^ 64

/-- Conversion of an `unsigned int` to `int`. -/
def to_int (n : Nat) : Int :=
  if u32 n < 2 ^ 31 then (u32 n : Int) else (u32 n : Int) - 2 ^ 32

/-- Conversion of an `int` to `unsigned int`. -/
def to_uint (i : Int) : Nat := (i % 2 ^ 32).toNat

/-- The errno `EINVAL`. -/
def EINVAL : Int := 22

/-! ## Delayed work -/

/-- The effect of `cancel_delayed_work_sync` on the work item. -/
def cancel_work (w : delayed_work) : delayed_work := { w with pending := false }

/-- The effect of `queue_delayed_work_on` at time `jiffies`: nothing when the
work is pending already, otherwise the timer is set to `jiffies + delay`. -/
def queue_work (w : delayed_work) (jiffies delay : Nat) : delayed_work :=
  if w.pending then w else { pending := true, expires := jiffies + delay }

/-- Modelled from the spec: `time_before` is a kernel macro that is not
defined in the file; the spec (4.5, step 3) reads `time_before (a, b)` as
`a` would occur before `b`, on absolute tick times.  Accordingly `jiffies`
and `work.timer.expires` are tick counts that do not wrap. -/
def time_before (a b : Nat) : Bool := decide (a < b)

/-! ## The frequency table lookup, as the spec describes it -/

/-- The nearest frequency of the table at or above `target`, if there is one. -/
def at_or_above (target : Nat) : List Nat → Option Nat
  | [] => none
  | f :: fs =>
    match at_or_above target fs with
    | none => if target ≤ f then some f else none
    | some g => if target ≤ f ∧ f ≤ g then some f else some g

/-- The nearest frequency of the table at or below `target`, if there is one. -/
def at_or_below (target : Nat) : List Nat → Option Nat
  | [] => none
  | f :: fs =>
    match at_or_below target fs with
    | none => if f ≤ target then some f else none
    | some g => if f ≤ target ∧ g ≤ f then some f else some g

/-- Modelled from the spec: `cpufreq_frequency_table_target` and the meaning
of `CPUFREQ_RELATION_H` / `CPUFREQ_RELATION_L` are outside the file.  The
spec (4.2 step 6 and the glossary) calls the first lookup of the sampling
step, made with `CPUFREQ_RELATION_H`, the round-up lookup, "the nearest
supported frequency at-or-above" the target, and the second one, made with
`CPUFREQ_RELATION_L`, the round-down lookup, "at-or-below".  The result is
the index of that entry, `none` when the table has no such entry. -/
def cpufreq_frequency_table_target (table : List Nat) (target : Nat) :
    Relation → Option Nat
  | Relation.CPUFREQ_RELATION_H => (at_or_above target table).map (fun f => table.indexOf f)
  | Relation.CPUFREQ_RELATION_L => (at_or_below target table).map (fun f => table.indexOf f)

/-! ## The sampling step -/

/-- Lines 222-223: the idle time read for CPU `cpu`, the sum of
`get_cpu_idle_time_us` and `get_cpu_iowait_time_us`, a `u64`. -/
def cur_idle_time (env : Env) (cpu : Nat) : Nat :=
  u64 (u64 (env.get_cpu_idle_time_us cpu) + u64 (env.get_cpu_iowait_time_us cpu))

/-- Line 223: the wall time `get_cpu_iowait_time_us` stores through its
second argument. -/
def cur_wall_time (env : Env) (cpu : Nat) : Nat := u64 (env.last_update_time cpu)

/-- Lines 225-226: `wall_time = (unsigned int) (cur_wall_time - prev_cpu_wall)`. -/
def wall_delta (env : Env) (this : cpufreq_phantom_cpuinfo) : Nat :=
  u32 (u64_sub (cur_wall_time env this.cpu) this.prev_cpu_wall)

/-- Lines 229-230: `idle_time = (unsigned int) (cur_idle_time - prev_cpu_idle)`. -/
def idle_delta (env : Env) (this : cpufreq_phantom_cpuinfo) : Nat :=
  u32 (u64_sub (cur_idle_time env this.cpu) this.prev_cpu_idle)

/-- The values `phantom_check_cpu` leaves behind: the updated per-CPU record,
the final values of its locals `cur_load`, `next_freq` and `index`, and the
calls it made. -/
structure CheckResult where
  cpuinfo : cpufreq_phantom_cpuinfo
  cur_load : Int
  next_freq : Nat
  index : Nat
  trace : List Event

/-- Line 241: `wall_time > idle_time ? (100 * (wall_time - idle_time)) / wall_time : 1`,
computed in `unsigned int` and stored in the `int` `cur_load`. -/
def compute_load (wall_time idle_time : Nat) : Int :=
  to_int (if wall_time > idle_time then u32 (100 * (wall_time - idle_time)) / wall_time else 1)

/-- Line 250: `max(min(cur_load * (max_freq / 100), max_freq), min_freq)`. -/
def scale_freq (cur_load : Int) (min_freq max_freq : Nat) : Nat :=
  max (min (u32 (to_uint cur_load * (max_freq / 100))) max_freq) min_freq

/-- The function `phantom_check_cpu` (lines 207-263).  The locals keep their
initial values `cur_load = -1`, `next_freq = 0`, `index = 0` on the paths
that do not assign them. -/
def phantom_check_cpu (K : Kernel) (env : Env) (this : cpufreq_phantom_cpuinfo) :
    CheckResult :=
  let cpu := this.cpu
  let wall_time := wall_delta env this
  let idle_time := idle_delta env this
  let this1 := { this with
    prev_cpu_wall := cur_wall_time env cpu
    prev_cpu_idle := cur_idle_time env cpu }
  match this.cur_policy with
  | none => { cpuinfo := this1, cur_load := -1, next_freq := 0, index := 0, trace := [] }
  | some cpu_policy =>
    if wall_time ≥ idle_time then
      let cur_load := compute_load wall_time idle_time
      let min_freq := cpu_policy.min
      let max_freq := cpu_policy.max
      let target := scale_freq cur_load min_freq max_freq
      let index1 := (K.table_target this.freq_table target Relation.CPUFREQ_RELATION_H).getD 0
      let lookup1 := [Event.table_target target Relation.CPUFREQ_RELATION_H]
      let second := decide (this.freq_table.getD index1 0 ≠ cpu_policy.cur)
      let index2 :=
        if second then
          (K.table_target this.freq_table target Relation.CPUFREQ_RELATION_L).getD index1
        else index1
      let lookup2 :=
        if second then [Event.table_target target Relation.CPUFREQ_RELATION_L] else []
      let next_freq := this.freq_table.getD index2 0
      let commit :=
        if next_freq ≠ cpu_policy.cur ∧ cpu ∈ env.online then
          [Event.driver_target next_freq Relation.CPUFREQ_RELATION_L]
        else []
      { cpuinfo := this1, cur_load := cur_load, next_freq := next_freq, index := index2,
        trace := lookup1 ++ lookup2 ++ commit }
    else { cpuinfo := this1, cur_load := -1, next_freq := 0, index := 0, trace := [] }

/-! ## Re-arming -/

/-- Lines 279-282 and 336-339: `delay = usecs_to_jiffies (sampling_rate)`,
and `delay -= jiffies % delay` when more than one CPU is online.  The result
is `none` when the modulo divides by zero.  The tick count of a period that
fits the `int` tunable fits the `int` `delay`, so `delay` is followed as a
natural number. -/
def sampling_delay (K : Kernel) (env : Env) (sampling_rate : Int) : Option Nat :=
  let delay := K.usecs_to_jiffies (to_uint sampling_rate)
  if env.online.length > 1 then
    if delay = 0 then none else some (delay - env.jiffies % delay)
  else some delay

/-- The work handler `do_phantom_timer` (lines 265-286) for the work item of
CPU `c`.  The workqueue has cleared the pending bit of the item before it
calls the handler. -/
def do_phantom_timer (K : Kernel) (env : Env) (s : GovState) (c : Nat) :
    Option (GovState × List Event) :=
  let phantom_cpuinfo := s.od_phantom_cpuinfo c
  let cpu := phantom_cpuinfo.cpu
  let r := phantom_check_cpu K env { phantom_cpuinfo with work := cancel_work phantom_cpuinfo.work }
  match sampling_delay K env s.sampling_rate with
  | none => none
  | some delay =>
    let cpuinfo := { r.cpuinfo with work := queue_work r.cpuinfo.work env.jiffies delay }
    some ({ s with od_phantom_cpuinfo := Function.update s.od_phantom_cpuinfo c cpuinfo },
      [Event.mutex_lock c] ++ r.trace ++
        [Event.queue_delayed_work_on cpu c delay, Event.mutex_unlock c])

/-! ## The governor callback -/

/-- The `CPUFREQ_GOV_START` case (lines 299-345). -/
def gov_start (K : Kernel) (env : Env) (s : GovState) (policy : cpufreq_policy) :
    Option (Int × GovState × List Event) :=
  let cpu := policy.cpu
  if policy.cur = 0 then some (-EINVAL, s, [])
  else
    let this := s.od_phantom_cpuinfo cpu
    let this1 := { this with
      cur_policy := some policy
      prev_cpu_idle := cur_idle_time env cpu
      prev_cpu_wall := cur_wall_time env cpu
      freq_table := env.cpufreq_frequency_get_table cpu
      cpu := cpu }
    let phantom_enable := u32 (s.phantom_enable + 1)
    if phantom_enable = 1 ∧ env.sysfs_create_group ≠ 0 then
      some (env.sysfs_create_group,
        { s with phantom_enable := phantom_enable
                 od_phantom_cpuinfo := Function.update s.od_phantom_cpuinfo cpu this1 },
        [Event.global_lock, Event.mutex_init cpu, Event.sysfs_create_group,
          Event.global_unlock])
    else
      match sampling_delay K env s.sampling_rate with
      | none => none
      | some delay =>
        let this2 := { this1 with
          enable := true
          work := queue_work { this1.work with pending := false } env.jiffies delay }
        some (0,
          { s with phantom_enable := phantom_enable
                   od_phantom_cpuinfo := Function.update s.od_phantom_cpuinfo cpu this2 },
          [Event.global_lock, Event.mutex_init cpu] ++
            (if phantom_enable = 1 then [Event.sysfs_create_group] else []) ++
            [Event.global_unlock, Event.queue_delayed_work_on cpu cpu delay])

/-- The `CPUFREQ_GOV_STOP` case (lines 347-360). -/
def gov_stop (s : GovState) (policy : cpufreq_policy) : Int × GovState × List Event :=
  let cpu := policy.cpu
  let this := s.od_phantom_cpuinfo cpu
  let this1 := { this with enable := false, work := cancel_work this.work }
  let phantom_enable := u32 (s.phantom_enable + 2 ^ 32 - 1)
  (0,
    { s with phantom_enable := phantom_enable
             od_phantom_cpuinfo := Function.update s.od_phantom_cpuinfo cpu this1 },
    [Event.cancel_delayed_work_sync cpu, Event.global_lock, Event.mutex_destroy cpu] ++
      (if phantom_enable = 0 then [Event.sysfs_remove_group] else []) ++
      [Event.global_unlock])

/-- The `CPUFREQ_GOV_LIMITS` case (lines 362-372); `none` is the dereference
of a `NULL` `cur_policy`. -/
def gov_limits (s : GovState) (policy : cpufreq_policy) :
    Option (Int × GovState × List Event) :=
  let cpu := policy.cpu
  let this := s.od_phantom_cpuinfo cpu
  match this.cur_policy with
  | none => none
  | some cur_policy =>
    some (0, s,
      [Event.mutex_lock cpu] ++
        (if policy.max < cur_policy.cur then
          [Event.driver_target policy.max Relation.CPUFREQ_RELATION_H]
        else if policy.min > cur_policy.cur then
          [Event.driver_target policy.min Relation.CPUFREQ_RELATION_L]
        else []) ++
        [Event.mutex_unlock cpu])

/-- The function `cpufreq_governor_phantom` (lines 288-375): the return
value, the state and the trace; `none` when the call does not return. -/
def cpufreq_governor_phantom (K : Kernel) (env : Env) (s : GovState)
    (policy : cpufreq_policy) : GovEvent → Option (Int × GovState × List Event)
  | GovEvent.CPUFREQ_GOV_START => gov_start K env s policy
  | GovEvent.CPUFREQ_GOV_STOP => some (gov_stop s policy)
  | GovEvent.CPUFREQ_GOV_LIMITS => gov_limits s policy
  | GovEvent.other => some (0, s, [])

/-! ## The sysfs write path -/

/-- One round of the loop of `update_sampling_rate` (lines 132-167), for the
online CPU `cpu`, built with `queue_delayed_work_on` (the branch compiled
when `CONFIG_CPU_EXYNOS4210` is not set). -/
def update_sampling_rate_cpu (K : Kernel) (env : Env) (new_rate : Nat)
    (acc : GovState × List Event) (cpu : Nat) : GovState × List Event :=
  match env.cpufreq_cpu_get cpu with
  | none => acc
  | some pcpu =>
    let phantom_cpuinfo := acc.1.od_phantom_cpuinfo pcpu
    if !phantom_cpuinfo.work.pending then
      (acc.1, acc.2 ++ [Event.mutex_lock pcpu, Event.mutex_unlock pcpu])
    else
      let next_sampling := env.jiffies + K.usecs_to_jiffies new_rate
      let appointed_at := phantom_cpuinfo.work.expires
      if time_before next_sampling appointed_at then
        let work := queue_work (cancel_work phantom_cpuinfo.work) env.jiffies
          (K.usecs_to_jiffies new_rate)
        ({ acc.1 with od_phantom_cpuinfo :=
            Function.update acc.1.od_phantom_cpuinfo pcpu { phantom_cpuinfo with work := work } },
          acc.2 ++ [Event.mutex_lock pcpu, Event.mutex_unlock pcpu,
            Event.cancel_delayed_work_sync pcpu, Event.mutex_lock pcpu,
            Event.queue_delayed_work_on phantom_cpuinfo.cpu pcpu (K.usecs_to_jiffies new_rate),
            Event.mutex_unlock pcpu])
      else
        (acc.1, acc.2 ++ [Event.mutex_lock pcpu, Event.mutex_unlock pcpu])

/-- The function `update_sampling_rate` (lines 126-168). -/
def update_sampling_rate (K : Kernel) (env : Env) (s : GovState) (new_rate : Nat) :
    GovState × List Event :=
  env.online.foldl (update_sampling_rate_cpu K env new_rate)
    ({ s with sampling_rate := to_int new_rate }, [])

/-- The function `store_sampling_rate` (lines 171-189).  `input` is what
`sscanf (buf, "%d", &input)` read, `none` when it read nothing; the result
is the return value, the state and the trace. -/
def store_sampling_rate (K : Kernel) (env : Env) (s : GovState) (input : Option Int)
    (count : Int) : Int × GovState × List Event :=
  match input with
  | none => (-EINVAL, s, [])
  | some input =>
    let input := max input 10000
    if input = s.sampling_rate then (count, s, [])
    else
      let r := update_sampling_rate K env s (to_uint input)
      (count, r.1, r.2)

/-- The initial values of the file-level variables (lines 69-85). -/
def initial_state : GovState where
  phantom_enable := 0
  sampling_rate := 60000
  od_phantom_cpuinfo := fun _ =>
    { prev_cpu_wall := 0, prev_cpu_idle := 0, freq_table := [],
      work := { pending := false, expires := 0 }, cur_policy := none, cpu := 0,
      enable := false }

/-! ## Vocabulary of the properties -/

/-- The load as the spec defines it (section 8): `1` when the two deltas are
equal, otherwise `floor (100 * (wall_delta - idle_delta) / wall_delta)`. -/
def reference_load (wall_delta idle_delta : Nat) : Int :=
  if wall_delta = idle_delta then 1
  else ((100 * (wall_delta - idle_delta) / wall_delta : Nat) : Int)

/-- The raw target of the spec (4.2 step 5),
`clamp (load * (max_f / 100), min_f, max_f)`, the upper limit applied first. -/
def clamp_target (load : Int) (p : cpufreq_policy) : Nat :=
  max (min (load.toNat * (p.max / 100)) p.max) p.min

/-- The frequency `f` is the entry of `table` at or above `target`: the least
entry that is not below `target`. -/
def NearestAtOrAbove (table : List Nat) (target f : Nat) : Prop :=
  f ∈ table ∧ target ≤ f ∧ ∀ g ∈ table, target ≤ g → f ≤ g

/-- The frequency `f` is the entry of `table` at or below `target`: the
greatest entry that is not above `target`. -/
def NearestAtOrBelow (table : List Nat) (target f : Nat) : Prop :=
  f ∈ table ∧ f ≤ target ∧ ∀ g ∈ table, g ≤ target → g ≤ f

/-- The delays of the `queue_delayed_work_on` calls of a trace, in order. -/
def armed_delays : List Event → List Nat
  | [] => []
  | Event.queue_delayed_work_on _ _ delay :: es => delay :: armed_delays es
  | _ :: es => armed_delays es

/-- The calls of the frequency driver in a trace, in order: the frequency
asked for and the relation. -/
def driver_calls : List Event → List (Nat × Relation)
  | [] => []
  | Event.driver_target freq relation :: es => (freq, relation) :: driver_calls es
  | _ :: es => driver_calls es

/-- One step of the `timer_mutex` of CPU `c` along a trace.  `held` says
whether the caller holds the mutex; the step is `none` when the caller locks
a mutex it holds, unlocks one it does not hold, calls
`cancel_delayed_work_sync` on the work of `c` while holding the mutex, or
queues the work of `c` without holding it. -/
def lock_step (c : Nat) (held : Bool) : Event → Option Bool
  | Event.mutex_lock c1 => if c1 = c then (if held then none else some true) else some held
  | Event.mutex_unlock c1 => if c1 = c then (if held then some false else none) else some held
  | Event.cancel_delayed_work_sync w => if w = c ∧ held = true then none else some held
  | Event.queue_delayed_work_on _ w _ => if w = c ∧ held = false then none else some held
  | _ => some held

/-- The `timer_mutex` of CPU `c` followed along a whole trace. -/
def run_trace (c : Nat) : Bool → List Event → Option Bool
  | held, [] => some held
  | held, e :: es =>
    match lock_step c held e with
    | none => none
    | some held1 => run_trace c held1 es

/-- The states the file-level variables can take: the initial ones, and
what a write of `sampling_rate` (of any text, `input` being an `int` when
it parses), a governor callback or a run of the work handler makes of a
reachable state. -/
inductive Reachable (K : Kernel) : GovState → Prop where
  | init : Reachable K initial_state
  | store (env : Env) (s : GovState) (input : Option Int) (count : Int) :
      Reachable K s → (∀ i, input = some i → -2 ^ 31 ≤ i ∧ i < 2 ^ 31) →
      Reachable K (store_sampling_rate K env s input count).2.1
  | governor (env : Env) (s : GovState) (policy : cpufreq_policy) (event : GovEvent)
      (rc : Int) (s1 : GovState) (tr : List Event) :
      Reachable K s → cpufreq_governor_phantom K env s policy event = some (rc, s1, tr) →
      Reachable K s1
  | timer (env : Env) (s : GovState) (c : Nat) (s1 : GovState) (tr : List Event) :
      Reachable K s → do_phantom_timer K env s c = some (s1, tr) → Reachable K s1

/-! ## Concrete inputs of the scenarios -/

/-- A kernel with `HZ = 100`: a tick is 10,000 microseconds and
`usecs_to_jiffies` rounds up; the table lookup is the one of the spec. -/
def kernel_hz100 : Kernel where
  usecs_to_jiffies := fun u => (u + 9999) / 10000
  table_target := cpufreq_frequency_table_target

/-- A frequency table in steps of 200 MHz, from 200 MHz to 1400 MHz (in kHz). -/
def table_200MHz : List Nat :=
  [200000, 400000, 600000, 800000, 1000000, 1200000, 1400000]

/-- CPU 0 running at 1200 MHz between the limits 200 MHz and 1400 MHz, its
counters last read at zero. -/
def cpuinfo_1200MHz : cpufreq_phantom_cpuinfo where
  prev_cpu_wall := 0
  prev_cpu_idle := 0
  freq_table := table_200MHz
  work := { pending := false, expires := 0 }
  cur_policy := some { cpu := 0, min := 200000, max := 1400000, cur := 1200000 }
  cpu := 0
  enable := true

/-- The governor running with the initial period of 60,000 us, the work of
every CPU pending for tick `expires`. -/
def state_pending (expires : Nat) : GovState :=
  { initial_state with
    od_phantom_cpuinfo := fun _ => { cpuinfo_1200MHz with work := ⟨true, expires⟩ } }

/-- One reading of the kernel with only CPU 0 online: `wall` microseconds of
wall time and `idle` microseconds of idle time on every CPU, no iowait, at
tick `now`; `sysfs_create_group` answers `rc`. -/
def env_sample (wall idle now : Nat) (rc : Int) : Env where
  jiffies := now
  online := [0]
  get_cpu_idle_time_us := fun _ => idle
  get_cpu_iowait_time_us := fun _ => 0
  last_update_time := fun _ => wall
  cpufreq_cpu_get := fun c => some c
  cpufreq_frequency_get_table := fun _ => table_200MHz
  sysfs_create_group := rc

/-! ## Arithmetic of the machine integers -/

theorem u32_lt (n : Nat) : u32 n < 2 ^ 32 := Nat.mod_lt _ (by norm_num)

theorem u32_of_lt {n : Nat} (h : n < 2 ^ 32) : u32 n = n := Nat.mod_eq_of_lt h

theorem to_int_of_lt {n : Nat} (h : n < 2 ^ 31) : to_int n = (n : Int) := by
  have h1 : u32 n = n := u32_of_lt (by omega)
  unfold to_int
  rw [h1, if_pos h]

theorem to_uint_natCast {n : Nat} (h : n < 2 ^ 32) : to_uint (n : Int) = n := by
  unfold to_uint
  omega

/-! ## The load of a sample -/

theorem compute_load_eq (w i : Nat) :
    compute_load w i =
      ((if w > i then u32 (100 * (w - i)) / w else 1 : Nat) : Int) := by
  unfold compute_load
  apply to_int_of_lt
  split
  · rename_i h
    have h1 : u32 (100 * (w - i)) / w ≤ 100 := by
      apply Nat.div_le_of_le_mul
      have := Nat.mod_le (100 * (w - i)) (2 ^ 32)
      unfold u32
      have h2 : 100 * (w - i) ≤ w * 100 := by omega
      omega
    omega
  · norm_num

theorem compute_load_nonneg (w i : Nat) : 0 ≤ compute_load w i := by
  rw [compute_load_eq w i]
  exact Int.natCast_nonneg _

theorem compute_load_le (w i : Nat) : compute_load w i ≤ 100 := by
  rw [compute_load_eq w i]
  split
  · have h1 : u32 (100 * (w - i)) / w ≤ 100 := by
      apply Nat.div_le_of_le_mul
      have := Nat.mod_le (100 * (w - i)) (2 ^ 32)
      unfold u32
      have h2 : 100 * (w - i) ≤ w * 100 := by omega
      omega
    exact_mod_cast h1
  · norm_num

theorem compute_load_lt (w i : Nat) (hi : 0 < i) :
    compute_load w i < 100 := by
  rw [compute_load_eq w i]
  split
  · rename_i h
    have h1 : u32 (100 * (w - i)) / w < 100 := by
      rw [Nat.div_lt_iff_lt_mul (by omega)]
      unfold u32
      omega
    exact_mod_cast h1
  · norm_num

theorem compute_load_pos (w i : Nat) (h1 : w ≤ 100 * (w - i))
    (h2 : 100 * (w - i) < 2 ^ 32) : 1 ≤ compute_load w i := by
  rw [compute_load_eq w i]
  split
  · rename_i h
    have h3 : 1 ≤ u32 (100 * (w - i)) / w := by
      rw [Nat.le_div_iff_mul_le (by omega)]
      rw [u32_of_lt h2]
      omega
    exact_mod_cast h3
  · norm_num

theorem compute_load_eq_reference (w i : Nat) (h : i ≤ w)
    (hno : 100 * (w - i) < 2 ^ 32) : compute_load w i = reference_load w i := by
  rw [compute_load_eq w i]
  unfold reference_load
  by_cases he : w = i
  · subst he
    simp
  · have hlt : w > i := by omega
    rw [if_pos hlt, if_neg he, u32_of_lt hno]

/-! ## The sampling step -/

theorem check_cpu_cpuinfo (K : Kernel) (env : Env) (this : cpufreq_phantom_cpuinfo) :
    (phantom_check_cpu K env this).cpuinfo =
      { this with
        prev_cpu_wall := cur_wall_time env this.cpu
        prev_cpu_idle := cur_idle_time env this.cpu } := by
  unfold phantom_check_cpu
  simp only []
  split
  · rfl
  · split <;> rfl

theorem check_cpu_cur_load (K : Kernel) (env : Env) (this : cpufreq_phantom_cpuinfo)
    (p : cpufreq_policy) (hp : this.cur_policy = some p)
    (hw : idle_delta env this ≤ wall_delta env this) :
    (phantom_check_cpu K env this).cur_load =
      compute_load (wall_delta env this) (idle_delta env this) := by
  unfold phantom_check_cpu
  simp only [hp]
  rw [if_pos hw]

theorem check_cpu_skip (K : Kernel) (env : Env) (this : cpufreq_phantom_cpuinfo)
    (hw : wall_delta env this < idle_delta env this) :
    (phantom_check_cpu K env this).trace = [] ∧
    (phantom_check_cpu K env this).cur_load = -1 ∧
    (phantom_check_cpu K env this).next_freq = 0 ∧
    (phantom_check_cpu K env this).index = 0 := by
  unfold phantom_check_cpu
  simp only []
  split
  · exact ⟨rfl, rfl, rfl, rfl⟩
  · rw [if_neg (by omega)]
    exact ⟨rfl, rfl, rfl, rfl⟩

/-! ## The table lookup of the spec -/

theorem at_or_above_none (t : Nat) (l : List Nat) (h : at_or_above t l = none) :
    ∀ g ∈ l, ¬ t ≤ g := by
  induction l with
  | nil => simp
  | cons f fs ih =>
    unfold at_or_above at h
    split at h
    · rename_i h0
      split at h
      · cases h
      · rename_i hf
        intro g hg
        rcases List.mem_cons.mp hg with rfl | hg
        · exact hf
        · exact ih h0 g hg
    · split at h <;> cases h

theorem at_or_above_some (t : Nat) (l : List Nat) (f : Nat) (h : at_or_above t l = some f) :
    NearestAtOrAbove l t f := by
  induction l generalizing f with
  | nil => simp [at_or_above] at h
  | cons a as ih =>
    unfold at_or_above at h
    split at h
    · rename_i h0
      have hn := at_or_above_none t as h0
      split at h
      · rename_i ha
        cases h
        refine ⟨List.mem_cons_self _ _, ha, ?_⟩
        intro g hg htg
        rcases List.mem_cons.mp hg with rfl | hg
        · exact le_rfl
        · exact absurd htg (hn g hg)
      · cases h
    · rename_i g0 h0
      obtain ⟨hm, hge, hmin⟩ := ih g0 h0
      split at h
      · rename_i ha
        cases h
        refine ⟨List.mem_cons_self _ _, ha.1, ?_⟩
        intro g hg htg
        rcases List.mem_cons.mp hg with rfl | hg
        · exact le_rfl
        · exact le_trans ha.2 (hmin g hg htg)
      · rename_i ha
        cases h
        refine ⟨List.mem_cons_of_mem _ hm, hge, ?_⟩
        intro g hg htg
        rcases List.mem_cons.mp hg with rfl | hg
        · have : ¬ g ≤ f := fun hle => ha ⟨htg, hle⟩
          omega
        · exact hmin g hg htg

theorem at_or_above_of_nearest (t : Nat) (l : List Nat) (f : Nat)
    (h : NearestAtOrAbove l t f) : at_or_above t l = some f := by
  obtain ⟨hm, hge, hmin⟩ := h
  cases h0 : at_or_above t l with
  | none => exact absurd hge (at_or_above_none t l h0 f hm)
  | some g =>
    obtain ⟨hm1, hge1, hmin1⟩ := at_or_above_some t l g h0
    have h1 := hmin g hm1 hge1
    have h2 := hmin1 f hm hge
    rw [Nat.le_antisymm h2 h1]

theorem at_or_below_none (t : Nat) (l : List Nat) (h : at_or_below t l = none) :
    ∀ g ∈ l, ¬ g ≤ t := by
  induction l with
  | nil => simp
  | cons f fs ih =>
    unfold at_or_below at h
    split at h
    · rename_i h0
      split at h
      · cases h
      · rename_i hf
        intro g hg
        rcases List.mem_cons.mp hg with rfl | hg
        · exact hf
        · exact ih h0 g hg
    · split at h <;> cases h

theorem at_or_below_some (t : Nat) (l : List Nat) (f : Nat) (h : at_or_below t l = some f) :
    NearestAtOrBelow l t f := by
  induction l generalizing f with
  | nil => simp [at_or_below] at h
  | cons a as ih =>
    unfold at_or_below at h
    split at h
    · rename_i h0
      have hn := at_or_below_none t as h0
      split at h
      · rename_i ha
        cases h
        refine ⟨List.mem_cons_self _ _, ha, ?_⟩
        intro g hg htg
        rcases List.mem_cons.mp hg with rfl | hg
        · exact le_rfl
        · exact absurd htg (hn g hg)
      · cases h
    · rename_i g0 h0
      obtain ⟨hm, hge, hmax⟩ := ih g0 h0
      split at h
      · rename_i ha
        cases h
        refine ⟨List.mem_cons_self _ _, ha.1, ?_⟩
        intro g hg htg
        rcases List.mem_cons.mp hg with rfl | hg
        · exact le_rfl
        · exact le_trans (hmax g hg htg) ha.2
      · rename_i ha
        cases h
        refine ⟨List.mem_cons_of_mem _ hm, hge, ?_⟩
        intro g hg htg
        rcases List.mem_cons.mp hg with rfl | hg
        · have : ¬ f ≤ g := fun hle => ha ⟨htg, hle⟩
          omega
        · exact hmax g hg htg

theorem at_or_below_of_nearest (t : Nat) (l : List Nat) (f : Nat)
    (h : NearestAtOrBelow l t f) : at_or_below t l = some f := by
  obtain ⟨hm, hle, hmax⟩ := h
  cases h0 : at_or_below t l with
  | none => exact absurd hle (at_or_below_none t l h0 f hm)
  | some g =>
    obtain ⟨hm1, hle1, hmax1⟩ := at_or_below_some t l g h0
    have h1 := hmax g hm1 hle1
    have h2 := hmax1 f hm hle
    rw [Nat.le_antisymm h1 h2]

theorem getD_indexOf (l : List Nat) (f : Nat) (h : f ∈ l) : l.getD (l.indexOf f) 0 = f := by
  have hlt : l.indexOf f < l.length := List.indexOf_lt_length.mpr h
  rw [List.getD_eq_getElem _ _ hlt]
  exact List.indexOf_get hlt

theorem table_target_H (table : List Nat) (target f : Nat)
    (h : NearestAtOrAbove table target f) :
    cpufreq_frequency_table_target table target Relation.CPUFREQ_RELATION_H =
      some (table.indexOf f) := by
  unfold cpufreq_frequency_table_target
  rw [at_or_above_of_nearest target table f h]
  rfl

theorem table_target_L (table : List Nat) (target f : Nat)
    (h : NearestAtOrBelow table target f) :
    cpufreq_frequency_table_target table target Relation.CPUFREQ_RELATION_L =
      some (table.indexOf f) := by
  unfold cpufreq_frequency_table_target
  rw [at_or_below_of_nearest target table f h]
  rfl

theorem scale_freq_eq_clamp (load : Int) (p : cpufreq_policy) (h0 : 0 ≤ load)
    (h1 : load ≤ 100) (hmax : p.max < 2 ^ 32) :
    scale_freq load p.min p.max = clamp_target load p := by
  unfold scale_freq clamp_target
  obtain ⟨n, rfl⟩ := Int.eq_ofNat_of_zero_le h0
  have hn : n ≤ 100 := by exact_mod_cast h1
  rw [to_uint_natCast (by omega), Int.toNat_ofNat]
  have h2 : n * (p.max / 100) ≤ 100 * (p.max / 100) := Nat.mul_le_mul_right _ hn
  have h3 : 100 * (p.max / 100) ≤ p.max := Nat.mul_div_le _ _
  rw [u32_of_lt (by omega)]

theorem indexOf_getElem_getD (l : List Nat) (f : Nat) (h : f ∈ l) :
    (l[l.indexOf f]?).getD 0 = f := by
  rw [← List.getD_eq_getElem?_getD]
  exact getD_indexOf l f h

/-- C1: in a sampling step with a policy and `wall_delta >= idle_delta`, where
`target = clamp (load * (max_f / 100), min_f, max_f)`, `up` is the table entry
at or above `target` and `down` the entry at or below it: the step looks up
round-up first, resolves to `up` if `up` is the running frequency and
otherwise looks up round-down and resolves to `down`; it then calls the
frequency driver, with the resolved frequency and `CPUFREQ_RELATION_L`,
exactly when that frequency differs from the running one and the CPU is
online.  The table lookup is the one the spec describes. -/
theorem phantom_check_cpu_two_phase_lookup (K : Kernel) (env : Env)
    (this : cpufreq_phantom_cpuinfo) (p : cpufreq_policy) (up down : Nat)
    (hK : K.table_target = cpufreq_frequency_table_target)
    (hp : this.cur_policy = some p) (hmax : p.max < 2 ^ 32)
    (hw : idle_delta env this ≤ wall_delta env this)
    (hup : NearestAtOrAbove this.freq_table
      (clamp_target (phantom_check_cpu K env this).cur_load p) up)
    (hdown : up ≠ p.cur → NearestAtOrBelow this.freq_table
      (clamp_target (phantom_check_cpu K env this).cur_load p) down) :
    (phantom_check_cpu K env this).next_freq = (if up = p.cur then up else down) ∧
    (phantom_check_cpu K env this).trace =
      [Event.table_target (clamp_target (phantom_check_cpu K env this).cur_load p)
        Relation.CPUFREQ_RELATION_H] ++
      (if up = p.cur then []
        else [Event.table_target (clamp_target (phantom_check_cpu K env this).cur_load p)
          Relation.CPUFREQ_RELATION_L]) ++
      (if (phantom_check_cpu K env this).next_freq ≠ p.cur ∧ this.cpu ∈ env.online then
        [Event.driver_target (phantom_check_cpu K env this).next_freq
          Relation.CPUFREQ_RELATION_L]
        else []) := by
  have hl := check_cpu_cur_load K env this p hp hw
  rw [hl] at hup hdown ⊢
  have hs := scale_freq_eq_clamp (compute_load (wall_delta env this) (idle_delta env this)) p
    (compute_load_nonneg _ _) (compute_load_le _ _) hmax
  have hmem : up ∈ this.freq_table := hup.1
  unfold phantom_check_cpu
  simp only [hp]
  rw [if_pos hw]
  simp only [hs, hK, table_target_H _ _ _ hup, Option.getD_some, getD_indexOf _ _ hmem]
  by_cases hc : up = p.cur
  · simp [hc, indexOf_getElem_getD _ _ (hc ▸ hmem)]
  · have hd := hdown hc
    simp [hc, table_target_L _ _ _ hd, indexOf_getElem_getD _ _ hd.1]

/-- The scenario of C1: CPU 0 runs at 1200 MHz between 200 MHz and 1400 MHz,
the table has steps of 200 MHz, and a sample of 60 ms with 30 ms idle gives
the load 50 and the target 700 MHz; the round-up lookup gives 800 MHz, which
is not the running frequency, so the step resolves to 600 MHz and calls the
frequency driver with 600 MHz. -/
theorem phantom_check_cpu_two_phase_lookup_witness :
    (phantom_check_cpu kernel_hz100 (env_sample 60000 30000 0 0) cpuinfo_1200MHz).cur_load = 50 ∧
    clamp_target 50 { cpu := 0, min := 200000, max := 1400000, cur := 1200000 } = 700000 ∧
    NearestAtOrAbove table_200MHz 700000 800000 ∧
    NearestAtOrBelow table_200MHz 700000 600000 ∧
    (phantom_check_cpu kernel_hz100 (env_sample 60000 30000 0 0) cpuinfo_1200MHz).next_freq
      = 600000 ∧
    (phantom_check_cpu kernel_hz100 (env_sample 60000 30000 0 0) cpuinfo_1200MHz).trace =
      [Event.table_target 700000 Relation.CPUFREQ_RELATION_H,
        Event.table_target 700000 Relation.CPUFREQ_RELATION_L,
        Event.driver_target 600000 Relation.CPUFREQ_RELATION_L] := by
  have hup : NearestAtOrAbove table_200MHz 700000 800000 := by
    unfold NearestAtOrAbove; decide
  have hdown : NearestAtOrBelow table_200MHz 700000 600000 := by
    unfold NearestAtOrBelow; decide
  have h := phantom_check_cpu_two_phase_lookup kernel_hz100 (env_sample 60000 30000 0 0)
    cpuinfo_1200MHz { cpu := 0, min := 200000, max := 1400000, cur := 1200000 } 800000 600000
    rfl rfl (by decide) (by decide) hup (fun _ => hdown)
  exact ⟨by decide, by decide, hup, hdown, h.1.trans (by decide), h.2.trans (by decide)⟩

/-- C2: a sample of 60 s of wall time with no idle time at all, on CPU 0 of
the 200 MHz table.  The product `100 * (wall_time - idle_time)` is
6,000,000,000 and wraps in `unsigned int` to 1,705,032,704, so the step
computes the load 28, where the reference definition gives 100. -/
theorem phantom_check_cpu_load_wraps (K : Kernel) :
    wall_delta (env_sample 60000000 0 0 0) cpuinfo_1200MHz = 60000000 ∧
    idle_delta (env_sample 60000000 0 0 0) cpuinfo_1200MHz = 0 ∧
    (phantom_check_cpu K (env_sample 60000000 0 0 0) cpuinfo_1200MHz).cur_load = 28 ∧
    reference_load 60000000 0 = 100 :=
  ⟨by decide, by decide, rfl, by decide⟩

/-- The load of a step is the reference load as long as
`100 * (wall_delta - idle_delta)` fits an `unsigned int`. -/
theorem phantom_check_cpu_load_reference (K : Kernel) (env : Env)
    (this : cpufreq_phantom_cpuinfo) (p : cpufreq_policy) (hp : this.cur_policy = some p)
    (hw : idle_delta env this ≤ wall_delta env this)
    (hno : 100 * (wall_delta env this - idle_delta env this) < 2 ^ 32) :
    (phantom_check_cpu K env this).cur_load =
      reference_load (wall_delta env this) (idle_delta env this) := by
  rw [check_cpu_cur_load K env this p hp hw]
  exact compute_load_eq_reference _ _ hw hno

/-- C3, as the code has it: with `wall_delta >= idle_delta > 0` (the two
different or not) the load of the step is in `[0, 100)`; it is at least 1
when moreover `wall_delta <= 100 * (wall_delta - idle_delta) < 2^32`. -/
theorem phantom_check_cpu_load_range (K : Kernel) (env : Env)
    (this : cpufreq_phantom_cpuinfo) (p : cpufreq_policy) (hp : this.cur_policy = some p)
    (hw : idle_delta env this ≤ wall_delta env this) (hi : 0 < idle_delta env this) :
    0 ≤ (phantom_check_cpu K env this).cur_load ∧
    (phantom_check_cpu K env this).cur_load < 100 ∧
    (wall_delta env this ≤ 100 * (wall_delta env this - idle_delta env this) →
      100 * (wall_delta env this - idle_delta env this) < 2 ^ 32 →
      1 ≤ (phantom_check_cpu K env this).cur_load) := by
  rw [check_cpu_cur_load K env this p hp hw]
  exact ⟨compute_load_nonneg _ _, compute_load_lt _ _ hi,
    fun h1 h2 => compute_load_pos _ _ h1 h2⟩

/-- A sample of 60 ms with 30 ms idle has a load in `[1, 100)`, namely 50. -/
theorem phantom_check_cpu_load_range_witness :
    idle_delta (env_sample 60000 30000 0 0) cpuinfo_1200MHz = 30000 ∧
    wall_delta (env_sample 60000 30000 0 0) cpuinfo_1200MHz = 60000 ∧
    0 ≤ (phantom_check_cpu kernel_hz100 (env_sample 60000 30000 0 0) cpuinfo_1200MHz).cur_load ∧
    (phantom_check_cpu kernel_hz100 (env_sample 60000 30000 0 0) cpuinfo_1200MHz).cur_load
      < 100 ∧
    1 ≤ (phantom_check_cpu kernel_hz100 (env_sample 60000 30000 0 0) cpuinfo_1200MHz).cur_load :=
  have h := phantom_check_cpu_load_range kernel_hz100 (env_sample 60000 30000 0 0)
    cpuinfo_1200MHz { cpu := 0, min := 200000, max := 1400000, cur := 1200000 } rfl
    (by decide) (by decide)
  ⟨by decide, by decide, h.1, h.2.1, h.2.2 (by decide) (by decide)⟩

/-- C3 fails as stated: a sample of 1000 us of wall time with 999 us idle
satisfies `wall_delta >= idle_delta > 0` and `wall_delta != idle_delta`, and
its load is 0, which is not in `[1, 100)`. -/
theorem phantom_check_cpu_load_zero :
    idle_delta (env_sample 1000 999 0 0) cpuinfo_1200MHz ≤
      wall_delta (env_sample 1000 999 0 0) cpuinfo_1200MHz ∧
    0 < idle_delta (env_sample 1000 999 0 0) cpuinfo_1200MHz ∧
    wall_delta (env_sample 1000 999 0 0) cpuinfo_1200MHz ≠
      idle_delta (env_sample 1000 999 0 0) cpuinfo_1200MHz ∧
    (phantom_check_cpu kernel_hz100 (env_sample 1000 999 0 0) cpuinfo_1200MHz).cur_load = 0 ∧
    ¬ (1 ≤ (phantom_check_cpu kernel_hz100 (env_sample 1000 999 0 0)
          cpuinfo_1200MHz).cur_load ∧
      (phantom_check_cpu kernel_hz100 (env_sample 1000 999 0 0) cpuinfo_1200MHz).cur_load < 100) :=
  ⟨by decide, by decide, by decide, by decide, by decide⟩

/-- C4: in a sampling step with `wall_delta < idle_delta` the step makes no
call at all (no table lookup, no call of the frequency driver), its locals
`cur_load`, `next_freq` and `index` keep their initial values, and the
per-CPU record after the step is the record before it with `prev_cpu_wall`
and `prev_cpu_idle` set to the counters just read. -/
theorem phantom_check_cpu_skips_tick (K : Kernel) (env : Env)
    (this : cpufreq_phantom_cpuinfo)
    (hw : wall_delta env this < idle_delta env this) :
    (phantom_check_cpu K env this).trace = [] ∧
    (phantom_check_cpu K env this).cur_load = -1 ∧
    (phantom_check_cpu K env this).next_freq = 0 ∧
    (phantom_check_cpu K env this).index = 0 ∧
    (phantom_check_cpu K env this).cpuinfo =
      { this with
        prev_cpu_wall := cur_wall_time env this.cpu
        prev_cpu_idle := cur_idle_time env this.cpu } := by
  obtain ⟨h1, h2, h3, h4⟩ := check_cpu_skip K env this hw
  exact ⟨h1, h2, h3, h4, check_cpu_cpuinfo K env this⟩

/-- A sample of 1000 us of wall time against 1999 us of idle time is skipped:
no call is made and only the two counters of the record change. -/
theorem phantom_check_cpu_skips_tick_witness :
    wall_delta (env_sample 1000 1999 0 0) cpuinfo_1200MHz <
      idle_delta (env_sample 1000 1999 0 0) cpuinfo_1200MHz ∧
    (phantom_check_cpu kernel_hz100 (env_sample 1000 1999 0 0) cpuinfo_1200MHz).trace = [] ∧
    (phantom_check_cpu kernel_hz100 (env_sample 1000 1999 0 0) cpuinfo_1200MHz).cpuinfo =
      { cpuinfo_1200MHz with prev_cpu_wall := 1000, prev_cpu_idle := 1999 } :=
  have h := phantom_check_cpu_skips_tick kernel_hz100 (env_sample 1000 1999 0 0)
    cpuinfo_1200MHz (by decide)
  ⟨by decide, h.1, h.2.2.2.2.trans (by decide)⟩

/-! ## The governor callback -/

theorem driver_calls_append (a b : List Event) :
    driver_calls (a ++ b) = driver_calls a ++ driver_calls b := by
  induction a with
  | nil => rfl
  | cons e es ih => cases e <;> simp [driver_calls, ih]

/-- C8: a `CPUFREQ_GOV_LIMITS` event with the limits `policy.min`,
`policy.max` on a CPU whose `cur_policy` is set and runs at `cur`: the
callback returns 0 and calls the frequency driver once with `policy.max` and
`CPUFREQ_RELATION_H` if `policy.max < cur`, else once with `policy.min` and
`CPUFREQ_RELATION_L` if `policy.min > cur`, else not at all; it makes no
call on the delayed work, and the state (the work item, `prev_cpu_wall`,
`prev_cpu_idle`, `phantom_enable` and all the rest) is the state before. -/
theorem gov_limits_forces_frequency (K : Kernel) (env : Env) (s : GovState)
    (policy cur_policy : cpufreq_policy)
    (hrun : (s.od_phantom_cpuinfo policy.cpu).cur_policy = some cur_policy) :
    ∃ tr, cpufreq_governor_phantom K env s policy GovEvent.CPUFREQ_GOV_LIMITS =
        some (0, s, tr) ∧
      driver_calls tr =
        (if policy.max < cur_policy.cur then [(policy.max, Relation.CPUFREQ_RELATION_H)]
          else if policy.min > cur_policy.cur then [(policy.min, Relation.CPUFREQ_RELATION_L)]
          else []) ∧
      armed_delays tr = [] ∧
      Event.cancel_delayed_work_sync policy.cpu ∉ tr ∧
      run_trace policy.cpu false tr = some false := by
  unfold cpufreq_governor_phantom gov_limits
  simp only [hrun]
  refine ⟨_, rfl, ?_⟩
  by_cases h1 : policy.max < cur_policy.cur
  · simp [h1, driver_calls, armed_delays, run_trace, lock_step]
  · by_cases h2 : policy.min > cur_policy.cur
    · simp [h1, h2, driver_calls, armed_delays, run_trace, lock_step]
    · simp [h1, h2, driver_calls, armed_delays, run_trace, lock_step]

/-- The scenario of C8: the limits change to a maximum of 500 MHz while CPU 0
runs at 1200 MHz; the callback asks the driver for 500 MHz with
`CPUFREQ_RELATION_H` and leaves the state alone. -/
theorem gov_limits_forces_frequency_witness :
    ∃ tr, cpufreq_governor_phantom kernel_hz100 (env_sample 0 0 0 0)
        { initial_state with od_phantom_cpuinfo := fun _ => cpuinfo_1200MHz }
        { cpu := 0, min := 200000, max := 500000, cur := 1200000 }
        GovEvent.CPUFREQ_GOV_LIMITS =
      some (0, { initial_state with od_phantom_cpuinfo := fun _ => cpuinfo_1200MHz }, tr) ∧
      driver_calls tr = [(500000, Relation.CPUFREQ_RELATION_H)] := by
  obtain ⟨tr, h1, h2, _⟩ := gov_limits_forces_frequency kernel_hz100 (env_sample 0 0 0 0)
    { initial_state with od_phantom_cpuinfo := fun _ => cpuinfo_1200MHz }
    { cpu := 0, min := 200000, max := 500000, cur := 1200000 }
    { cpu := 0, min := 200000, max := 1400000, cur := 1200000 } rfl
  exact ⟨tr, h1, h2.trans (by decide)⟩

/-- C5: the first `CPUFREQ_GOV_START` (on the initial state, where
`phantom_enable` is 0) with `sysfs_create_group` failing with -12.  The
callback returns -12 and leaves `phantom_enable` at 1: the increment of line
315 is not taken back on the early return of lines 323-326. -/
theorem gov_start_failed_registration_keeps_count :
    initial_state.phantom_enable = 0 ∧
    ∃ s1 tr, cpufreq_governor_phantom kernel_hz100 (env_sample 0 0 0 (-12)) initial_state
        { cpu := 0, min := 200000, max := 1400000, cur := 1200000 }
        GovEvent.CPUFREQ_GOV_START = some (-12, s1, tr) ∧
      s1.phantom_enable = 1 ∧
      tr = [Event.global_lock, Event.mutex_init 0, Event.sysfs_create_group,
        Event.global_unlock] :=
  ⟨rfl, _, _, rfl, rfl, rfl⟩

/-- Every first `CPUFREQ_GOV_START` whose registration fails returns the
error of `sysfs_create_group` with `phantom_enable` one above its value
before the call. -/
theorem gov_start_failed_registration (K : Kernel) (env : Env) (s : GovState)
    (policy : cpufreq_policy) (hcur : policy.cur ≠ 0) (hfirst : s.phantom_enable = 0)
    (hrc : env.sysfs_create_group ≠ 0) :
    ∃ s1 tr, cpufreq_governor_phantom K env s policy GovEvent.CPUFREQ_GOV_START =
        some (env.sysfs_create_group, s1, tr) ∧
      s1.phantom_enable = s.phantom_enable + 1 := by
  unfold cpufreq_governor_phantom gov_start
  simp only [hfirst]
  rw [if_neg hcur, if_pos ⟨by decide, hrc⟩]
  exact ⟨_, _, rfl, rfl⟩

/-! ## Re-arming -/

theorem armed_delays_append (a b : List Event) :
    armed_delays (a ++ b) = armed_delays a ++ armed_delays b := by
  induction a with
  | nil => rfl
  | cons e es ih => cases e <;> simp [armed_delays, ih]

theorem check_cpu_armed_delays (K : Kernel) (env : Env) (this : cpufreq_phantom_cpuinfo) :
    armed_delays (phantom_check_cpu K env this).trace = [] := by
  unfold phantom_check_cpu
  simp only []
  split
  · rfl
  · split
    · simp only [armed_delays_append]
      split <;> split <;> simp [armed_delays]
    · rfl

theorem to_uint_of_int {i : Int} (h0 : 0 ≤ i) (h1 : i < 2 ^ 31) : to_uint i = i.toNat := by
  unfold to_uint
  omega

theorem sampling_delay_eq (K : Kernel) (env : Env) (rate : Int)
    (hd : 1 ≤ K.usecs_to_jiffies (to_uint rate)) :
    sampling_delay K env rate =
      some (if 1 < env.online.length then
        K.usecs_to_jiffies (to_uint rate) - env.jiffies % K.usecs_to_jiffies (to_uint rate)
        else K.usecs_to_jiffies (to_uint rate)) := by
  unfold sampling_delay
  simp only []
  by_cases h : env.online.length > 1
  · rw [if_pos h, if_neg (by omega), if_pos h]
  · rw [if_neg h, if_neg h]

/-- C9: with a sampling period of at least 10,000 us, which is at least one
tick (`d >= 1`, where `d` is the period in ticks), the work handler and
START both queue the work exactly once, with the delay `r = d` when at most
one CPU is online and `r = d - jiffies % d` when more than one is (so the
modulo does not divide by zero and both return); `1 <= r <= d`, and in the
second case `jiffies + r` is a multiple of `d`. -/
theorem rearm_delay_on_tick_boundary (K : Kernel) (env : Env) (s : GovState) (c : Nat)
    (policy : cpufreq_policy)
    (hconv : ∀ u, 10000 ≤ u → 1 ≤ K.usecs_to_jiffies u)
    (hrate : 10000 ≤ s.sampling_rate) (hint : s.sampling_rate < 2 ^ 31)
    (hcur : policy.cur ≠ 0)
    (hreg : u32 (s.phantom_enable + 1) = 1 → env.sysfs_create_group = 0) :
    ∃ d r, d = K.usecs_to_jiffies s.sampling_rate.toNat ∧
      r = (if 1 < env.online.length then d - env.jiffies % d else d) ∧
      (∃ s1 tr, do_phantom_timer K env s c = some (s1, tr) ∧ armed_delays tr = [r]) ∧
      (∃ s1 tr, cpufreq_governor_phantom K env s policy GovEvent.CPUFREQ_GOV_START =
        some (0, s1, tr) ∧ armed_delays tr = [r]) ∧
      1 ≤ d ∧ 1 ≤ r ∧ r ≤ d ∧ (1 < env.online.length → d ∣ env.jiffies + r) := by
  have hu : to_uint s.sampling_rate = s.sampling_rate.toNat :=
    to_uint_of_int (by omega) hint
  have hd : 1 ≤ K.usecs_to_jiffies s.sampling_rate.toNat := hconv _ (by omega)
  have hsd := sampling_delay_eq K env s.sampling_rate (by rw [hu]; exact hd)
  rw [hu] at hsd
  have hmod : env.jiffies % K.usecs_to_jiffies s.sampling_rate.toNat <
      K.usecs_to_jiffies s.sampling_rate.toNat := Nat.mod_lt _ hd
  refine ⟨_, _, rfl, rfl, ?_, ?_, hd, ?_, ?_, ?_⟩
  · unfold do_phantom_timer
    simp only [hsd]
    refine ⟨_, _, rfl, ?_⟩
    simp [armed_delays_append, check_cpu_armed_delays, armed_delays]
  · unfold cpufreq_governor_phantom gov_start
    simp only [hsd]
    rw [if_neg hcur]
    have hno : ¬ (u32 (s.phantom_enable + 1) = 1 ∧ env.sysfs_create_group ≠ 0) :=
      fun h => h.2 (hreg h.1)
    rw [if_neg hno]
    refine ⟨_, _, rfl, ?_⟩
    by_cases h1 : u32 (s.phantom_enable + 1) = 1 <;>
      simp [armed_delays_append, armed_delays, h1]
  · split <;> omega
  · split <;> omega
  · intro h
    rw [if_pos h]
    have hdm := Nat.div_add_mod env.jiffies (K.usecs_to_jiffies s.sampling_rate.toNat)
    refine ⟨env.jiffies / K.usecs_to_jiffies s.sampling_rate.toNat + 1, ?_⟩
    rw [Nat.mul_add, Nat.mul_one]
    omega

/-- The delays of C9 at `HZ = 100` with the initial period of 60,000 us (6
ticks), at tick 1234: one CPU online gives 6, and two CPUs online give
`6 - 1234 % 6 = 2`, and `1234 + 2 = 1236` is a multiple of 6. -/
theorem rearm_delay_on_tick_boundary_witness :
    (∃ s1 tr, do_phantom_timer kernel_hz100
        { env_sample 0 0 1234 0 with online := [0, 1] } initial_state 0 = some (s1, tr) ∧
      armed_delays tr = [2]) ∧
    (∃ s1 tr, cpufreq_governor_phantom kernel_hz100
        { env_sample 0 0 1234 0 with online := [0, 1] } initial_state
        { cpu := 0, min := 200000, max := 1400000, cur := 1200000 }
        GovEvent.CPUFREQ_GOV_START = some (0, s1, tr) ∧ armed_delays tr = [2]) ∧
    6 ∣ 1234 + 2 := by
  obtain ⟨d, r, hd, hr, h1, h2, _, _, _, h3⟩ := rearm_delay_on_tick_boundary kernel_hz100
    { env_sample 0 0 1234 0 with online := [0, 1] } initial_state 0
    { cpu := 0, min := 200000, max := 1400000, cur := 1200000 }
    (fun u hu => by show 1 ≤ (u + 9999) / 10000; omega)
    (by decide) (by decide) (by decide) (fun _ => rfl)
  have hd6 : d = 6 := hd.trans (by decide)
  subst hd6
  have hr2 : r = 2 := hr.trans (by decide)
  subst hr2
  exact ⟨h1, h2, h3 (by decide)⟩

/-! ## The sampling period -/

theorem update_cpu_sampling_rate (K : Kernel) (env : Env) (new_rate : Nat)
    (acc : GovState × List Event) (cpu : Nat) :
    (update_sampling_rate_cpu K env new_rate acc cpu).1.sampling_rate =
      acc.1.sampling_rate := by
  unfold update_sampling_rate_cpu
  split
  · rfl
  · simp only []
    split
    · rfl
    · split <;> rfl

theorem update_fold_sampling_rate (K : Kernel) (env : Env) (new_rate : Nat)
    (cpus : List Nat) (acc : GovState × List Event) :
    (cpus.foldl (update_sampling_rate_cpu K env new_rate) acc).1.sampling_rate =
      acc.1.sampling_rate := by
  induction cpus generalizing acc with
  | nil => rfl
  | cons c cs ih => rw [List.foldl_cons, ih, update_cpu_sampling_rate]

theorem update_sampling_rate_stores (K : Kernel) (env : Env) (s : GovState)
    (new_rate : Nat) :
    (update_sampling_rate K env s new_rate).1.sampling_rate = to_int new_rate := by
  unfold update_sampling_rate
  rw [update_fold_sampling_rate]

theorem store_sampling_rate_floor (K : Kernel) (env : Env) (s : GovState)
    (input : Option Int) (count : Int)
    (hin : ∀ i, input = some i → -2 ^ 31 ≤ i ∧ i < 2 ^ 31)
    (hs : 10000 ≤ s.sampling_rate) :
    10000 ≤ (store_sampling_rate K env s input count).2.1.sampling_rate := by
  unfold store_sampling_rate
  cases input with
  | none => exact hs
  | some i =>
    simp only []
    split
    · exact hs
    · obtain ⟨_, h2⟩ := hin i rfl
      have hm : (10000 : Int) ≤ max i 10000 := le_max_right _ _
      have hM : max i 10000 < 2 ^ 31 := max_lt h2 (by norm_num)
      rw [update_sampling_rate_stores, to_uint_of_int (by omega) hM,
        to_int_of_lt (by omega)]
      omega

theorem do_phantom_timer_sampling_rate (K : Kernel) (env : Env) (s s1 : GovState) (c : Nat)
    (tr : List Event) (h : do_phantom_timer K env s c = some (s1, tr)) :
    s1.sampling_rate = s.sampling_rate := by
  unfold do_phantom_timer at h
  simp only [] at h
  split at h
  · cases h
  · cases h
    rfl

theorem governor_sampling_rate (K : Kernel) (env : Env) (s s1 : GovState)
    (policy : cpufreq_policy) (event : GovEvent) (rc : Int) (tr : List Event)
    (h : cpufreq_governor_phantom K env s policy event = some (rc, s1, tr)) :
    s1.sampling_rate = s.sampling_rate := by
  cases event with
  | CPUFREQ_GOV_START =>
    unfold cpufreq_governor_phantom gov_start at h
    simp only [] at h
    split at h
    · cases h; rfl
    · split at h
      · cases h; rfl
      · split at h
        · cases h
        · cases h; rfl
  | CPUFREQ_GOV_STOP =>
    unfold cpufreq_governor_phantom gov_stop at h
    simp only [Option.some.injEq, Prod.mk.injEq] at h
    obtain ⟨_, h1, _⟩ := h
    rw [← h1]
  | CPUFREQ_GOV_LIMITS =>
    unfold cpufreq_governor_phantom gov_limits at h
    simp only [] at h
    split at h
    · cases h
    · cases h; rfl
  | other =>
    unfold cpufreq_governor_phantom at h
    cases h
    rfl

theorem reachable_sampling_rate (K : Kernel) (s : GovState) (h : Reachable K s) :
    10000 ≤ s.sampling_rate := by
  induction h with
  | init => decide
  | store env s input count _ hin ih => exact store_sampling_rate_floor K env s input count hin ih
  | governor env s policy event rc s1 tr _ hstep ih =>
    rw [governor_sampling_rate K env s s1 policy event rc tr hstep]
    exact ih
  | timer env s c s1 tr _ hstep ih =>
    rw [do_phantom_timer_sampling_rate K env s s1 c tr hstep]
    exact ih

/-- C6: a write of `sampling_rate` whose text parses to an integer below
10,000 (negative or not) leaves exactly 10,000 in
`phantom_tuners_ins.sampling_rate`, whatever the value before, and returns
`count`; and in every state reachable from the initial one, where the period
is 60,000, the period is at least 10,000. -/
theorem store_sampling_rate_floor_10000 (K : Kernel) (env : Env) (s : GovState)
    (input count : Int) (hlow : input < 10000) :
    (store_sampling_rate K env s (some input) count).2.1.sampling_rate = 10000 ∧
    (store_sampling_rate K env s (some input) count).1 = count ∧
    initial_state.sampling_rate = 60000 ∧
    ∀ s1, Reachable K s1 → 10000 ≤ s1.sampling_rate := by
  refine ⟨?_, ?_, rfl, reachable_sampling_rate K⟩
  · unfold store_sampling_rate
    simp only []
    rw [max_eq_right (le_of_lt hlow)]
    split
    · rename_i h
      exact h.symm
    · rw [update_sampling_rate_stores]
      decide
  · unfold store_sampling_rate
    simp only []
    split <;> rfl

/-- Writing `-5` while the period is 60,000 stores 10,000. -/
theorem store_sampling_rate_floor_10000_witness :
    ((-5 : Int) < 10000) ∧
    (store_sampling_rate kernel_hz100 (env_sample 0 0 0 0) initial_state
      (some (-5)) 3).2.1.sampling_rate = 10000 :=
  ⟨by decide, (store_sampling_rate_floor_10000 kernel_hz100 (env_sample 0 0 0 0) initial_state
    (-5) 3 (by decide)).1⟩

/-! ## The loop of `update_sampling_rate` -/

theorem update_cpu_cases (K : Kernel) (env : Env) (new_rate : Nat)
    (acc : GovState × List Event) (cpu : Nat) :
    (env.cpufreq_cpu_get cpu = none ∧ update_sampling_rate_cpu K env new_rate acc cpu = acc) ∨
    (∃ pcpu, env.cpufreq_cpu_get cpu = some pcpu ∧
      ¬ ((acc.1.od_phantom_cpuinfo pcpu).work.pending = true ∧
        env.jiffies + K.usecs_to_jiffies new_rate <
          (acc.1.od_phantom_cpuinfo pcpu).work.expires) ∧
      update_sampling_rate_cpu K env new_rate acc cpu =
        (acc.1, acc.2 ++ [Event.mutex_lock pcpu, Event.mutex_unlock pcpu])) ∨
    (∃ pcpu, env.cpufreq_cpu_get cpu = some pcpu ∧
      (acc.1.od_phantom_cpuinfo pcpu).work.pending = true ∧
      env.jiffies + K.usecs_to_jiffies new_rate <
        (acc.1.od_phantom_cpuinfo pcpu).work.expires ∧
      update_sampling_rate_cpu K env new_rate acc cpu =
        ({ acc.1 with od_phantom_cpuinfo :=
            (Function.update acc.1.od_phantom_cpuinfo pcpu
              { (acc.1.od_phantom_cpuinfo pcpu) with
                work := ⟨true, env.jiffies + K.usecs_to_jiffies new_rate⟩ }) },
          acc.2 ++ [Event.mutex_lock pcpu, Event.mutex_unlock pcpu,
            Event.cancel_delayed_work_sync pcpu, Event.mutex_lock pcpu,
            Event.queue_delayed_work_on (acc.1.od_phantom_cpuinfo pcpu).cpu pcpu
              (K.usecs_to_jiffies new_rate),
            Event.mutex_unlock pcpu])) := by
  unfold update_sampling_rate_cpu
  cases hget : env.cpufreq_cpu_get cpu with
  | none => exact Or.inl ⟨rfl, rfl⟩
  | some pcpu =>
    right
    by_cases hp : (acc.1.od_phantom_cpuinfo pcpu).work.pending = true
    · by_cases hb : env.jiffies + K.usecs_to_jiffies new_rate <
          (acc.1.od_phantom_cpuinfo pcpu).work.expires
      · right
        refine ⟨pcpu, rfl, hp, hb, ?_⟩
        simp [hp, hb, time_before, queue_work, cancel_work]
      · left
        refine ⟨pcpu, rfl, fun h => hb h.2, ?_⟩
        simp [hp, hb, time_before]
    · left
      refine ⟨pcpu, rfl, fun h => hp h.1, ?_⟩
      simp [hp]

theorem run_trace_append (c : Nat) (held : Bool) (a b : List Event) :
    run_trace c held (a ++ b) = (run_trace c held a).bind (fun h => run_trace c h b) := by
  induction a generalizing held with
  | nil => rfl
  | cons e es ih =>
    simp only [List.cons_append, run_trace]
    cases lock_step c held e with
    | none => rfl
    | some h1 => exact ih h1

theorem update_cpu_run_trace (K : Kernel) (env : Env) (new_rate : Nat)
    (acc : GovState × List Event) (cpu c : Nat)
    (h : run_trace c false acc.2 = some false) :
    run_trace c false (update_sampling_rate_cpu K env new_rate acc cpu).2 = some false := by
  rcases update_cpu_cases K env new_rate acc cpu with ⟨_, h1⟩ | ⟨pcpu, _, _, h1⟩ |
    ⟨pcpu, _, _, _, h1⟩
  · rw [h1]; exact h
  · rw [h1, run_trace_append, h]
    by_cases hc : pcpu = c <;> simp [run_trace, lock_step, hc]
  · rw [h1, run_trace_append, h]
    by_cases hc : pcpu = c <;> simp [run_trace, lock_step, hc]

theorem update_fold_run_trace (K : Kernel) (env : Env) (new_rate : Nat) (c : Nat)
    (cpus : List Nat) (acc : GovState × List Event)
    (h : run_trace c false acc.2 = some false) :
    run_trace c false (cpus.foldl (update_sampling_rate_cpu K env new_rate) acc).2 =
      some false := by
  induction cpus generalizing acc with
  | nil => exact h
  | cons x xs ih =>
    rw [List.foldl_cons]
    exact ih _ (update_cpu_run_trace K env new_rate acc x c h)

/-- C10: along the trace of `update_sampling_rate`, and along the trace of
the `CPUFREQ_GOV_STOP` case of the callback (which returns 0), the
`timer_mutex` of any CPU `c`, free at the start, is never locked twice nor
unlocked while free, `cancel_delayed_work_sync` on the work of `c` never
happens while the mutex of `c` is held, the work of `c` is only queued while
the mutex of `c` is held, and the mutex is free at the end.  STOP does call
`cancel_delayed_work_sync`. -/
theorem cancel_never_under_timer_mutex (K : Kernel) (env : Env) (s : GovState)
    (new_rate : Nat) (policy : cpufreq_policy) (c : Nat) :
    run_trace c false (update_sampling_rate K env s new_rate).2 = some false ∧
    ∃ s1 tr, cpufreq_governor_phantom K env s policy GovEvent.CPUFREQ_GOV_STOP =
        some (0, s1, tr) ∧
      Event.cancel_delayed_work_sync policy.cpu ∈ tr ∧
      run_trace c false tr = some false := by
  constructor
  · unfold update_sampling_rate
    exact update_fold_run_trace K env new_rate c env.online _ rfl
  · unfold cpufreq_governor_phantom gov_stop
    refine ⟨_, _, rfl,
      List.mem_append_left _ (List.mem_append_left _ (List.mem_cons_self _ _)), ?_⟩
    simp only [run_trace_append]
    generalize u32 (s.phantom_enable + 2 ^ 32 - 1) = pe
    by_cases h0 : pe = 0 <;>
      by_cases hc : policy.cpu = c <;> simp [run_trace, lock_step, h0, hc]

/-- The mutex discipline rejects a cancel under the mutex, a queue without
it and a return with the mutex held, and accepts the sequence of lines
143-166. -/
theorem run_trace_examples :
    run_trace 0 false [Event.mutex_lock 0, Event.cancel_delayed_work_sync 0,
      Event.mutex_unlock 0] = none ∧
    run_trace 0 false [Event.queue_delayed_work_on 0 0 6] = none ∧
    run_trace 0 false [Event.mutex_lock 0] = some true ∧
    run_trace 0 false [Event.mutex_lock 0, Event.mutex_unlock 0,
      Event.cancel_delayed_work_sync 0, Event.mutex_lock 0,
      Event.queue_delayed_work_on 0 0 6, Event.mutex_unlock 0] = some false :=
  ⟨by decide, by decide, by decide, by decide⟩

theorem update_cpu_trace_grows (K : Kernel) (env : Env) (new_rate : Nat)
    (acc : GovState × List Event) (cpu : Nat) (e : Event) (he : e ∈ acc.2) :
    e ∈ (update_sampling_rate_cpu K env new_rate acc cpu).2 := by
  rcases update_cpu_cases K env new_rate acc cpu with ⟨_, h1⟩ | ⟨pcpu, _, _, h1⟩ |
    ⟨pcpu, _, _, _, h1⟩
  · rw [h1]; exact he
  · rw [h1]; exact List.mem_append_left _ he
  · rw [h1]; exact List.mem_append_left _ he

theorem update_fold_trace_grows (K : Kernel) (env : Env) (new_rate : Nat)
    (cpus : List Nat) (acc : GovState × List Event) (e : Event) (he : e ∈ acc.2) :
    e ∈ (cpus.foldl (update_sampling_rate_cpu K env new_rate) acc).2 := by
  induction cpus generalizing acc with
  | nil => exact he
  | cons x xs ih =>
    rw [List.foldl_cons]
    exact ih _ (update_cpu_trace_grows K env new_rate acc x e he)

/-- A round of the loop leaves alone a work item that is not pending, or
whose timer does not fire after `jiffies + usecs_to_jiffies (new_rate)`. -/
theorem update_cpu_untouched (K : Kernel) (env : Env) (new_rate : Nat)
    (acc : GovState × List Event) (cpu x : Nat)
    (hx : ¬ ((acc.1.od_phantom_cpuinfo x).work.pending = true ∧
      env.jiffies + K.usecs_to_jiffies new_rate < (acc.1.od_phantom_cpuinfo x).work.expires))
    (hcancel : Event.cancel_delayed_work_sync x ∉ acc.2)
    (hqueue : ∀ q d, Event.queue_delayed_work_on q x d ∉ acc.2) :
    (update_sampling_rate_cpu K env new_rate acc cpu).1.od_phantom_cpuinfo x =
      acc.1.od_phantom_cpuinfo x ∧
    Event.cancel_delayed_work_sync x ∉ (update_sampling_rate_cpu K env new_rate acc cpu).2 ∧
    ∀ q d, Event.queue_delayed_work_on q x d ∉
      (update_sampling_rate_cpu K env new_rate acc cpu).2 := by
  rcases update_cpu_cases K env new_rate acc cpu with ⟨_, h1⟩ | ⟨pcpu, _, _, h1⟩ |
    ⟨pcpu, _, hp, hb, h1⟩
  · rw [h1]; exact ⟨rfl, hcancel, hqueue⟩
  · rw [h1]
    refine ⟨rfl, ?_, ?_⟩
    · simp [hcancel]
    · intro q d
      simp [hqueue q d]
  · have hne : x ≠ pcpu := by
      intro h
      subst h
      exact hx ⟨hp, hb⟩
    rw [h1]
    refine ⟨?_, ?_, ?_⟩
    · simp only []
      rw [Function.update_noteq hne]
    · simp [hcancel, hne]
    · intro q d
      simp [hqueue q d, hne]

theorem update_fold_untouched (K : Kernel) (env : Env) (new_rate : Nat)
    (cpus : List Nat) (acc : GovState × List Event) (x : Nat)
    (hx : ¬ ((acc.1.od_phantom_cpuinfo x).work.pending = true ∧
      env.jiffies + K.usecs_to_jiffies new_rate < (acc.1.od_phantom_cpuinfo x).work.expires))
    (hcancel : Event.cancel_delayed_work_sync x ∉ acc.2)
    (hqueue : ∀ q d, Event.queue_delayed_work_on q x d ∉ acc.2) :
    (cpus.foldl (update_sampling_rate_cpu K env new_rate) acc).1.od_phantom_cpuinfo x =
      acc.1.od_phantom_cpuinfo x ∧
    Event.cancel_delayed_work_sync x ∉
      (cpus.foldl (update_sampling_rate_cpu K env new_rate) acc).2 ∧
    ∀ q d, Event.queue_delayed_work_on q x d ∉
      (cpus.foldl (update_sampling_rate_cpu K env new_rate) acc).2 := by
  induction cpus generalizing acc with
  | nil => exact ⟨rfl, hcancel, hqueue⟩
  | cons c cs ih =>
    rw [List.foldl_cons]
    obtain ⟨h1, h2, h3⟩ := update_cpu_untouched K env new_rate acc c x hx hcancel hqueue
    obtain ⟨k1, k2, k3⟩ := ih (update_sampling_rate_cpu K env new_rate acc c)
      (by rw [h1]; exact hx) h2 h3
    exact ⟨k1.trans h1, k2, k3⟩

/-- Once the work of `x` is pending with its timer at
`jiffies + usecs_to_jiffies (new_rate)`, the rest of the loop keeps the
record of `x`. -/
theorem update_fold_keeps (K : Kernel) (env : Env) (new_rate : Nat)
    (cpus : List Nat) (acc : GovState × List Event) (x : Nat)
    (hx : ¬ ((acc.1.od_phantom_cpuinfo x).work.pending = true ∧
      env.jiffies + K.usecs_to_jiffies new_rate < (acc.1.od_phantom_cpuinfo x).work.expires)) :
    (cpus.foldl (update_sampling_rate_cpu K env new_rate) acc).1.od_phantom_cpuinfo x =
      acc.1.od_phantom_cpuinfo x := by
  induction cpus generalizing acc with
  | nil => rfl
  | cons c cs ih =>
    rw [List.foldl_cons]
    have h1 : (update_sampling_rate_cpu K env new_rate acc c).1.od_phantom_cpuinfo x =
        acc.1.od_phantom_cpuinfo x := by
      rcases update_cpu_cases K env new_rate acc c with ⟨_, h1⟩ | ⟨pcpu, _, _, h1⟩ |
        ⟨pcpu, _, hp, hb, h1⟩
      · rw [h1]
      · rw [h1]
      · have hne : x ≠ pcpu := by
          intro h
          subst h
          exact hx ⟨hp, hb⟩
        rw [h1]
        simp only []
        rw [Function.update_noteq hne]
    rw [ih _ (by rw [h1]; exact hx), h1]

/-- The first round that reaches a pending work item firing after
`jiffies + usecs_to_jiffies (new_rate)` cancels it and queues it again; the
rounds before it leave it alone. -/
theorem update_fold_rearms (K : Kernel) (env : Env) (new_rate : Nat)
    (cpus : List Nat) (acc : GovState × List Event) (c x : Nat)
    (hc : c ∈ cpus) (hget : env.cpufreq_cpu_get c = some x)
    (hp : (acc.1.od_phantom_cpuinfo x).work.pending = true)
    (hb : env.jiffies + K.usecs_to_jiffies new_rate <
      (acc.1.od_phantom_cpuinfo x).work.expires) :
    (cpus.foldl (update_sampling_rate_cpu K env new_rate) acc).1.od_phantom_cpuinfo x =
      { (acc.1.od_phantom_cpuinfo x) with
        work := ⟨true, env.jiffies + K.usecs_to_jiffies new_rate⟩ } ∧
    Event.cancel_delayed_work_sync x ∈
      (cpus.foldl (update_sampling_rate_cpu K env new_rate) acc).2 ∧
    Event.queue_delayed_work_on (acc.1.od_phantom_cpuinfo x).cpu x
        (K.usecs_to_jiffies new_rate) ∈
      (cpus.foldl (update_sampling_rate_cpu K env new_rate) acc).2 := by
  induction cpus generalizing acc with
  | nil => cases hc
  | cons a as ih =>
    rw [List.foldl_cons]
    rcases update_cpu_cases K env new_rate acc a with ⟨hn, h1⟩ | ⟨pcpu, hg, hnot, h1⟩ |
      ⟨pcpu, hg, _, _, h1⟩
    · have hca : c ∈ as := by
        rcases List.mem_cons.mp hc with h | h
        · subst h
          rw [hget] at hn
          cases hn
        · exact h
      rw [h1]
      exact ih acc hca hp hb
    · have hne : pcpu ≠ x := by
        intro h
        subst h
        exact hnot ⟨hp, hb⟩
      have hca : c ∈ as := by
        rcases List.mem_cons.mp hc with h | h
        · subst h
          rw [hget] at hg
          cases hg
          exact absurd rfl hne
        · exact h
      have h2 := ih (update_sampling_rate_cpu K env new_rate acc a) hca
        (by rw [h1]; exact hp) (by rw [h1]; exact hb)
      rw [h1] at h2 ⊢
      exact h2
    · by_cases hxp : pcpu = x
      · subst hxp
        have hod : (update_sampling_rate_cpu K env new_rate acc a).1.od_phantom_cpuinfo pcpu =
            { (acc.1.od_phantom_cpuinfo pcpu) with
              work := ⟨true, env.jiffies + K.usecs_to_jiffies new_rate⟩ } := by
          rw [h1]
          simp only []
          rw [Function.update_same]
        have hkeep := update_fold_keeps K env new_rate as
          (update_sampling_rate_cpu K env new_rate acc a) pcpu
          (by rw [hod]; simp)
        refine ⟨hkeep.trans hod, ?_, ?_⟩
        · apply update_fold_trace_grows
          rw [h1]
          simp
        · apply update_fold_trace_grows
          rw [h1]
          simp
      · have hca : c ∈ as := by
          rcases List.mem_cons.mp hc with h | h
          · subst h
            rw [hget] at hg
            cases hg
            exact absurd rfl hxp
          · exact h
        have hod : (update_sampling_rate_cpu K env new_rate acc a).1.od_phantom_cpuinfo x =
            acc.1.od_phantom_cpuinfo x := by
          rw [h1]
          simp only []
          rw [Function.update_noteq (Ne.symm hxp)]
        have h2 := ih (update_sampling_rate_cpu K env new_rate acc a) hca
          (by rw [hod]; exact hp) (by rw [hod]; exact hb)
        rw [hod] at h2
        exact h2

/-- C7: for an online CPU `c` whose policy is managed by CPU `pc`, the work of
`pc` being pending, `update_sampling_rate (new_rate)` cancels that work and
queues it again with the delay `usecs_to_jiffies (new_rate)` (so that it
fires at `jiffies + usecs_to_jiffies (new_rate)`) when
`time_before (jiffies + usecs_to_jiffies (new_rate), expires)` holds, and
otherwise neither cancels nor queues it and leaves its record as it was.  In
particular when `new_rate` is above the old period and the work fires no
later than `jiffies` plus the old period in ticks, it is not cancelled
(`usecs_to_jiffies` being monotone). -/
theorem update_sampling_rate_rearms_iff_sooner (K : Kernel) (env : Env) (s : GovState)
    (new_rate c pc : Nat) (hc : c ∈ env.online) (hget : env.cpufreq_cpu_get c = some pc)
    (hpend : (s.od_phantom_cpuinfo pc).work.pending = true) :
    (time_before (env.jiffies + K.usecs_to_jiffies new_rate)
        (s.od_phantom_cpuinfo pc).work.expires = true →
      Event.cancel_delayed_work_sync pc ∈ (update_sampling_rate K env s new_rate).2 ∧
      Event.queue_delayed_work_on (s.od_phantom_cpuinfo pc).cpu pc
        (K.usecs_to_jiffies new_rate) ∈ (update_sampling_rate K env s new_rate).2 ∧
      (update_sampling_rate K env s new_rate).1.od_phantom_cpuinfo pc =
        { (s.od_phantom_cpuinfo pc) with
          work := ⟨true, env.jiffies + K.usecs_to_jiffies new_rate⟩ }) ∧
    (time_before (env.jiffies + K.usecs_to_jiffies new_rate)
        (s.od_phantom_cpuinfo pc).work.expires = false →
      Event.cancel_delayed_work_sync pc ∉ (update_sampling_rate K env s new_rate).2 ∧
      (∀ q d, Event.queue_delayed_work_on q pc d ∉
        (update_sampling_rate K env s new_rate).2) ∧
      (update_sampling_rate K env s new_rate).1.od_phantom_cpuinfo pc =
        s.od_phantom_cpuinfo pc) ∧
    (Monotone K.usecs_to_jiffies → to_uint s.sampling_rate < new_rate →
      (s.od_phantom_cpuinfo pc).work.expires ≤
        env.jiffies + K.usecs_to_jiffies (to_uint s.sampling_rate) →
      Event.cancel_delayed_work_sync pc ∉ (update_sampling_rate K env s new_rate).2) := by
  have hstay : ¬ (env.jiffies + K.usecs_to_jiffies new_rate <
        (s.od_phantom_cpuinfo pc).work.expires) →
      Event.cancel_delayed_work_sync pc ∉ (update_sampling_rate K env s new_rate).2 ∧
      (∀ q d, Event.queue_delayed_work_on q pc d ∉
        (update_sampling_rate K env s new_rate).2) ∧
      (update_sampling_rate K env s new_rate).1.od_phantom_cpuinfo pc =
        s.od_phantom_cpuinfo pc := by
    intro hnb
    obtain ⟨h1, h2, h3⟩ := update_fold_untouched K env new_rate env.online
      ({ s with sampling_rate := to_int new_rate }, []) pc (fun h => hnb h.2)
      (List.not_mem_nil _) (fun _ _ => List.not_mem_nil _)
    exact ⟨h2, h3, h1⟩
  refine ⟨?_, ?_, ?_⟩
  · intro hb
    have hb1 : env.jiffies + K.usecs_to_jiffies new_rate <
        (s.od_phantom_cpuinfo pc).work.expires := by
      simpa [time_before] using hb
    obtain ⟨h1, h2, h3⟩ := update_fold_rearms K env new_rate env.online
      ({ s with sampling_rate := to_int new_rate }, []) c pc hc hget hpend hb1
    exact ⟨h2, h3, h1⟩
  · intro hb
    exact hstay (by simpa [time_before] using hb)
  · intro hmono hnew hexp
    have hd := hmono (le_of_lt hnew)
    exact (hstay (by omega)).1

/-- The scenario of C7 at `HZ = 100`, tick 1234, with the work of CPU 0
pending for tick 1240 and the period at 60,000 us: a new period of 20,000
us (2 ticks) cancels the work and queues it for tick 1236; a new period of
120,000 us (12 ticks) does not cancel it. -/
theorem update_sampling_rate_rearms_iff_sooner_witness :
    (Event.cancel_delayed_work_sync 0 ∈ (update_sampling_rate kernel_hz100
        (env_sample 0 0 1234 0) (state_pending 1240) 20000).2 ∧
      ((update_sampling_rate kernel_hz100 (env_sample 0 0 1234 0) (state_pending 1240)
        20000).1.od_phantom_cpuinfo 0).work = ⟨true, 1236⟩) ∧
    Event.cancel_delayed_work_sync 0 ∉ (update_sampling_rate kernel_hz100
        (env_sample 0 0 1234 0) (state_pending 1240) 120000).2 := by
  have hmono : Monotone kernel_hz100.usecs_to_jiffies := fun a b h =>
    Nat.div_le_div_right (Nat.add_le_add_right h 9999)
  have h1 := (update_sampling_rate_rearms_iff_sooner kernel_hz100 (env_sample 0 0 1234 0)
    (state_pending 1240) 20000 0 0 (by decide) rfl rfl).1 (by decide)
  have h2 := (update_sampling_rate_rearms_iff_sooner kernel_hz100 (env_sample 0 0 1234 0)
    (state_pending 1240) 120000 0 0 (by decide) rfl rfl).2.2 hmono (by decide) (by decide)
  exact ⟨⟨h1.1, (congrArg cpufreq_phantom_cpuinfo.work h1.2.2).trans rfl⟩, h2⟩

end Phantom
